import Mathlib

/-!
Verification of the job-statistics enrichment program (`process_job_stats.py`
and the `parse_line` variant in `process-job-stats.py`).

Strings are modelled as `List Char`; Python floats are modelled as exact
rationals (`ℚ`); a Python function that can raise is modelled as an
`Option`-returning function where `none` stands for the raised exception.
-/

/-- Model of Python `str.split(sep)` for a one-character separator:
`"a,b".split(",") = ["a","b"]`, `"".split(",") = [""]`, `",".split(",") = ["",""]`. -/
def pySplit (c : Char) : List Char → List (List Char)
  | [] => [[]]
  | x :: xs =>
    let r := pySplit c xs
    if x = c then [] :: r else (x :: r.headD []) :: r.tail

/-- Model of Python `str.strip()`: drop leading and trailing whitespace. -/
def pyStrip (l : List Char) : List Char :=
  ((l.dropWhile Char.isWhitespace).reverse.dropWhile Char.isWhitespace).reverse

/-- Model of the Python substring test `pat in s`. -/
def containsSeq (pat : List Char) : List Char → Bool
  | [] => pat.isEmpty
  | x :: xs => pat.isPrefixOf (x :: xs) || containsSeq pat xs

/-- Numeric value of a string of decimal digits (most significant first). -/
def digitsVal (l : List Char) : Nat :=
  l.foldl (fun a c => a * 10 + (c.toNat - 48)) 0

/-- Model of Python `int(s)` as used on the scheduler's fields: succeeds on a
non-empty string of decimal digits, raises `ValueError` (= `none`) otherwise.
(Python's `int` also accepts signs and surrounding whitespace; the fields this
program converts are unsigned counts, already stripped.) -/
def parseIntStr? (l : List Char) : Option Nat :=
  if !l.isEmpty && l.all Char.isDigit then some (digitsVal l) else none

/-- `OPEN_USE_PARTITIONS` from `process_job_stats.py`. -/
def OPEN_USE_PARTITIONS : List (List Char) :=
  ["compute".data, "compute_intel".data, "computelong".data,
   "computelong_intel".data, "gpu".data, "gpulong".data, "interactive".data,
   "interactivegpu".data, "memory".data, "memorylong".data]

/-- `Job.parse_elapsed_to_seconds`, split part: the remainder after the
optional day split must divide on `:` into exactly three integer fields
(the Python tuple unpacking raises otherwise), giving
`days*86400 + h*60*60 + m*60 + s`. -/
def parseHMScore (days? : Option Nat) (fields : List (Option Nat)) : Option Nat :=
  match fields with
  | [h?, m?, s?] =>
    match days?, h?, m?, s? with
    | some d, some h, some m, some s => some (d * 86400 + h * 60 * 60 + m * 60 + s)
    | _, _, _, _ => none
  | _ => none

/-- The day count (already parsed) combined with the `h, m, s = [int(p) ...]`
unpacking of the remainder. -/
def parseHMS (days? : Option Nat) (rest : List Char) : Option Nat :=
  parseHMScore days? ((pySplit ':' rest).map parseIntStr?)

/-- `Job.parse_elapsed_to_seconds` proper: the hyphen branch takes `p[0]` as
the day count and `p[1]` as the remainder. -/
def parse_elapsed_to_seconds (elapsed : List Char) : Option Nat :=
  if '-' ∈ elapsed then
    parseHMS (parseIntStr? ((pySplit '-' elapsed).headD []))
      ((pySplit '-' elapsed).getD 1 [])
  else parseHMS (some 0) elapsed

/-- The GPU resource key `"gres/gpu="` scanned for in the TRES list. -/
def gpuKey : List Char := "gres/gpu=".data

/-- Python `part.split("=")[1]` followed by `int(...)`: `none` models both the
`IndexError` (no `=` in the token) and the `ValueError` (non-integer value). -/
def valueAfterEq (part : List Char) : Option Nat :=
  match pySplit '=' part with
  | _ :: v :: _ => parseIntStr? v
  | _ => none

/-- The `for part in tres.split(",")` loop body of `calculate_gpus_from_tres`:
return the parsed value of the first token containing the key; falling off the
end of the loop raises `ValueError` (= `none`). -/
def scanTres : List (List Char) → Option Nat
  | [] => none
  | part :: rest =>
    if containsSeq gpuKey part then valueAfterEq part else scanTres rest

/-- `Job.calculate_gpus_from_tres`: 0 when `"gres/gpu="` does not occur in the
whole TRES string, otherwise the value of the first comma-separated token
containing the key. -/
def calculate_gpus_from_tres (tres : List Char) : Option Nat :=
  if containsSeq gpuKey tres then scanTres (pySplit ',' tres) else some 0

/-- The `JobCategory` enum. -/
inductive JobCategory where
  | OPEN
  | DONATED
  | CONDO
deriving DecidableEq, Repr

/-- `Job.categorize_job`: classification by the job's recorded partition only. -/
def categorize_job (partition : List Char) : JobCategory :=
  if partition ∈ OPEN_USE_PARTITIONS then .OPEN
  else if partition = "preempt".data then .DONATED
  else .CONDO

/-- The node→partition snapshot from which `NodePartitions` builds its dict
(`sinfo -h -o '%n,%P'` pairs, in order; a duplicated node keeps the later pair,
as in the Python dict comprehension). -/
def NodePartitionPairs := List (List Char × List Char)

/-- Dict lookup for an association list built by a Python dict comprehension:
the last binding of a key wins; `none` models the `KeyError` for a missing key. -/
def dictLookup {β : Type} (m : List (List Char × β)) (k : List Char) : Option β :=
  (m.reverse.find? (fun e => e.1 == k)).map (fun e => e.2)

/-- `NodePartitions.get_partition`: the `KeyError` for an unknown node is caught
inside this method and turned into `""` — it never escapes to callers. -/
def get_partition (nps : NodePartitionPairs) (node : List Char) : List Char :=
  (dictLookup nps node).getD []

/-- `AccountStorages.get_storage`: unknown account yields 0. -/
def get_storage (ass : List (List Char × Nat)) (account : List Char) : Nat :=
  (dictLookup ass account).getD 0

/-- `AccountPIs.get_pi`: unknown account yields `""`. -/
def get_pi (aps : List (List Char × List Char)) (account : List Char) : List Char :=
  (dictLookup aps account).getD []

/-- `[n.strip() for n in self.nodelist.split(",") if n.strip()]`. -/
def nodesOfNodelist (nodelist : List Char) : List (List Char) :=
  ((pySplit ',' nodelist).map pyStrip).filter (fun n => !n.isEmpty)

/-- Whether a node's partition (per `get_partition`, `""` when unknown) is in
`OPEN_USE_PARTITIONS` — the `is_openuse` test of `calculate_weight`. -/
def nodeIsOpenUse (nps : NodePartitionPairs) (n : List Char) : Bool :=
  OPEN_USE_PARTITIONS.contains (get_partition nps n)

/-- The numeric core of `Job.calculate_weight` for the two accepted categories.
Since `get_partition` never raises, the `except: nl -= 1` handler in the source
loop is unreachable: the denominator is always the full count of non-empty
nodes, and a node with unknown partition tests as not open-use. -/
def weight_frac (openCat : Bool) (nps : NodePartitionPairs) (nodelist : List Char) : ℚ :=
  if (nodesOfNodelist nodelist).length = 0 then 0
  else
    ((nodesOfNodelist nodelist).countP
        (fun n => if openCat then nodeIsOpenUse nps n else !nodeIsOpenUse nps n) : ℚ)
      / ((nodesOfNodelist nodelist).length : ℚ)

/-- `Job.calculate_weight`: raises (`none`) unless the category is OPEN or
CONDO, otherwise the fraction of the job's nodes testing (not) open-use. -/
def calculate_weight (category : JobCategory) (nps : NodePartitionPairs)
    (nodelist : List Char) : Option ℚ :=
  match category with
  | .DONATED => none
  | .OPEN => some (weight_frac true nps nodelist)
  | .CONDO => some (weight_frac false nps nodelist)

/-- A parsed naive timestamp, as produced by `datetime.fromisoformat` on the
scheduler's `YYYY-MM-DDTHH:MM:SS` timestamps. -/
structure PyDatetime where
  year : Nat
  month : Nat
  day : Nat
  hour : Nat
  minute : Nat
  second : Nat
deriving DecidableEq, Repr

/-- Model of `datetime.fromisoformat` on the `YYYY-MM-DDTHH:MM:SS` strings the
scheduler emits; `none` models the `ValueError` on anything malformed.  (The
model checks the basic field ranges; Python additionally validates the day
against the month length and accepts some further ISO forms — neither matters
to the claims, which only use such strings as opaque parseable inputs.) -/
def fromisoformat? (iso : List Char) : Option PyDatetime :=
  match pySplit 'T' iso with
  | [d, t] =>
    match (pySplit '-' d).map parseIntStr?, (pySplit ':' t).map parseIntStr? with
    | [some y, some mo, some da], [some h, some mi, some s] =>
      if 1 ≤ mo && mo ≤ 12 && 1 ≤ da && da ≤ 31 && h ≤ 23 && mi ≤ 59 && s ≤ 59
      then some ⟨y, mo, da, h, mi, s⟩ else none
    | _, _ => none
  | _ => none

/-- Days from 1970-01-01 of a proleptic-Gregorian civil date (the standard
days-from-civil computation backing `datetime` ordinal arithmetic). -/
def daysFromCivil (y m d : Nat) : Int :=
  let ya : Int := if m ≤ 2 then (y : Int) - 1 else (y : Int)
  let era : Int := ya.fdiv 400
  let yoe : Int := ya - era * 400
  let mp : Int := ((m : Int) + 9) % 12
  let doy : Int := (153 * mp + 2).fdiv 5 + (d : Int) - 1
  let doe : Int := yoe * 365 + yoe.fdiv 4 - yoe.fdiv 100 + doy
  era * 146097 + doe - 719468

/-- A timestamp as a count of seconds, so that `datetime` subtraction is
integer subtraction (`timedelta.total_seconds`). -/
def dtSeconds (dt : PyDatetime) : Int :=
  daysFromCivil dt.year dt.month dt.day * 86400
    + (dt.hour : Int) * 3600 + (dt.minute : Int) * 60 + (dt.second : Int)

/-- `Job.calculate_wait_time_hours`: parse both timestamps, subtract, and take
`abs(delta.total_seconds() / 60 / 60)`; `none` models the parse `ValueError`. -/
def calculate_wait_time_hours (iso1 iso2 : List Char) : Option ℚ :=
  match fromisoformat? iso1, fromisoformat? iso2 with
  | some a, some b => some |((dtSeconds b - dtSeconds a : Int) : ℚ) / 60 / 60|
  | _, _ => none

/-- `Job.calculate_compute_hours`: resource count times elapsed seconds over
3600; `none` models the exception out of `parse_elapsed_to_seconds`. -/
def calculate_compute_hours (number : ℚ) (elapsed : List Char) : Option ℚ :=
  (parse_elapsed_to_seconds elapsed).map (fun es : Nat => number * (es : ℚ) / 60 / 60)

/-- `Job.calculate_run_time_hours`. -/
def calculate_run_time_hours (elapsed : List Char) : Option ℚ :=
  (parse_elapsed_to_seconds elapsed).map (fun es : Nat => (es : ℚ) / 60 / 60)

/-- `Job.get_day_date_from_iso`: `iso.split("T")[0]`. -/
def get_day_date_from_iso (iso : List Char) : List Char :=
  (pySplit 'T' iso).headD []

/-- The fully-initialized `Job` dataclass (SLURM fields plus derived fields). -/
structure Job where
  job_id : List Char
  job_name : List Char
  username : List Char
  account : List Char
  partition : List Char
  elapsed : List Char
  nodes : List Char
  cpus : Nat
  tres : List Char
  submit_time : List Char
  start_time : List Char
  end_time : List Char
  nodelist : List Char
  pi : List Char
  account_storage_gb : Nat
  category : JobCategory
  openuse_weight : ℚ
  condo_weight : ℚ
  gpus : Nat
  cpu_hours : ℚ
  gpu_hours : ℚ
  wait_time_hours : ℚ
  run_time_hours : ℚ
  date : List Char
deriving DecidableEq, Repr

/-- `[e.strip() for e in slurm_job_line.split("|") if e.strip()]`:
whitespace-only fields are dropped before positional assignment. -/
def splitFields (line : List Char) : List (List Char) :=
  ((pySplit '|' line).map pyStrip).filter (fun n => !n.isEmpty)

/-- The record built by the tail of `Job.__init__` once every conversion has
succeeded.  The `.getD` fall-backs on the hours fields are unreachable: `es`
is the successful parse of the very same elapsed string. -/
def mkJob (nps : NodePartitionPairs) (ass : List (List Char × Nat))
    (aps : List (List Char × List Char)) (p : List (List Char))
    (cpus gpus : Nat) (wait : ℚ) : Job :=
  { job_id := p.getD 0 []
    job_name := p.getD 1 []
    username := p.getD 2 []
    account := p.getD 3 []
    partition := p.getD 4 []
    elapsed := p.getD 5 []
    nodes := p.getD 6 []
    cpus := cpus
    tres := p.getD 8 []
    submit_time := p.getD 9 []
    start_time := p.getD 10 []
    end_time := p.getD 11 []
    nodelist := p.getD 12 []
    pi := get_pi aps (p.getD 3 [])
    account_storage_gb := get_storage ass (p.getD 3 [])
    category := categorize_job (p.getD 4 [])
    openuse_weight := (calculate_weight .OPEN nps (p.getD 12 [])).getD 0
    condo_weight := (calculate_weight .CONDO nps (p.getD 12 [])).getD 0
    gpus := gpus
    cpu_hours := (calculate_compute_hours (cpus : ℚ) (p.getD 5 [])).getD 0
    gpu_hours := (calculate_compute_hours (gpus : ℚ) (p.getD 5 [])).getD 0
    wait_time_hours := wait
    run_time_hours := (calculate_run_time_hours (p.getD 5 [])).getD 0
    date := get_day_date_from_iso (p.getD 11 []) }

/-- Outcome of evaluating `Job(line, ...)` in Python.  `header` and
`zeroElapsed` are the two early `return None` paths: the constructor stops,
but the (partially-initialized, truthy) object is still produced.  `exn` is
any exception escaping `__init__` (IndexError on a short field list,
ValueError from `int`/duration/TRES/timestamp parsing). -/
inductive InitResult where
  | header
  | zeroElapsed
  | exn
  | ok (j : Job)
deriving DecidableEq

/-- `Job.__init__`, with the source's evaluation order: header test, first six
fields, the zero-duration check, the remaining fields and conversions, then
the derived fields (TRES before timestamps, as in the source).  Index and
value errors at different positions all surface as `.exn`. -/
def initJob (nps : NodePartitionPairs) (ass : List (List Char × Nat))
    (aps : List (List Char × List Char)) (line : List Char) : InitResult :=
  if ("JobID".data).isPrefixOf line then .header
  else if (splitFields line).length < 6 then .exn
  else
    match parse_elapsed_to_seconds ((splitFields line).getD 5 []) with
    | none => .exn
    | some es =>
      if es = 0 then .zeroElapsed
      else if (splitFields line).length < 13 then .exn
      else
        match parseIntStr? ((splitFields line).getD 7 []) with
        | none => .exn
        | some cpus =>
          match calculate_gpus_from_tres ((splitFields line).getD 8 []) with
          | none => .exn
          | some gpus =>
            match calculate_wait_time_hours ((splitFields line).getD 9 [])
                ((splitFields line).getD 10 []) with
            | none => .exn
            | some wait => .ok (mkJob nps ass aps (splitFields line) cpus gpus wait)

/-- What the `main` loop does with one input line.  Python's `if job:` test is
always true (a dataclass instance without `__bool__`/`__len__` is truthy), so
an early-returned, partially-initialized `Job` reaches `job.keys()` /
`writer.writerow(job.values())`, whose `asdict` accesses the unset fields and
raises `AttributeError`; the bare `except: out.close(); raise` re-raises it. -/
inductive StepResult where
  | wroteRow (j : Job)
  | raisedAttr
  | raisedParse
deriving DecidableEq, Repr

/-- Whether a step wrote a row. -/
def StepResult.wrote : StepResult → Bool
  | .wroteRow _ => true
  | _ => false

/-- Processing of one line by `main` (header printing aside — the run is
modelled with `--noheader`, which does not change any of the claims). -/
def mainStep (nps : NodePartitionPairs) (ass : List (List Char × Nat))
    (aps : List (List Char × List Char)) (line : List Char) : StepResult :=
  match initJob nps ass aps line with
  | .ok j => .wroteRow j
  | .header => .raisedAttr
  | .zeroElapsed => .raisedAttr
  | .exn => .raisedParse

/-- The `for line in sys.stdin` loop: rows are written one at a time; the
first exception closes the output and re-raises, so no later line is
processed.  Returns the rows written and whether the batch aborted. -/
def runMain (nps : NodePartitionPairs) (ass : List (List Char × Nat))
    (aps : List (List Char × List Char)) : List (List Char) → List Job × Bool
  | [] => ([], false)
  | l :: ls =>
    match mainStep nps ass aps l with
    | .wroteRow j =>
      let r := runMain nps ass aps ls
      (j :: r.1, r.2)
    | _ => ([], true)

/-! ### Lemmas about the string helpers -/

theorem pySplit_nil (c : Char) : pySplit c [] = [[]] := rfl

theorem pySplit_cons (c x : Char) (xs : List Char) :
    pySplit c (x :: xs) =
      if x = c then [] :: pySplit c xs
      else (x :: (pySplit c xs).headD []) :: (pySplit c xs).tail := rfl

theorem pySplit_ne_nil (c : Char) (l : List Char) : pySplit c l ≠ [] := by
  cases l with
  | nil => simp [pySplit_nil]
  | cons x xs =>
    rw [pySplit_cons]
    split <;> simp

theorem pySplit_append_sep {c : Char} {a : List Char} (b : List Char) (h : c ∉ a) :
    pySplit c (a ++ c :: b) = a :: pySplit c b := by
  induction a with
  | nil => simp [pySplit_cons, pySplit_ne_nil]
  | cons x a ih =>
    have hx : x ≠ c := fun e => h (e ▸ List.mem_cons_self x a)
    have ha : c ∉ a := fun e => h (List.mem_cons_of_mem _ e)
    simp [List.cons_append, pySplit_cons, if_neg hx, ih ha]

theorem pySplit_no_sep {c : Char} {a : List Char} (h : c ∉ a) :
    pySplit c a = [a] := by
  induction a with
  | nil => simp [pySplit_nil]
  | cons x a ih =>
    have hx : x ≠ c := fun e => h (e ▸ List.mem_cons_self x a)
    have ha : c ∉ a := fun e => h (List.mem_cons_of_mem _ e)
    simp [pySplit_cons, if_neg hx, ih ha]

theorem headD_pySplit_isPre (c : Char) (l : List Char) :
    (pySplit c l).headD [] <+: l := by
  induction l with
  | nil => simp [pySplit_nil]
  | cons x xs ih =>
    by_cases hx : x = c
    · subst hx; simp [pySplit_cons]
    · simpa [pySplit_cons, if_neg hx, List.cons_prefix_cons] using ih

theorem isPre_headD_pySplit {c : Char} {k l : List Char} (hp : k <+: l) (hc : c ∉ k) :
    k <+: (pySplit c l).headD [] := by
  induction k generalizing l with
  | nil => exact List.nil_prefix
  | cons a k ih =>
    cases l with
    | nil => simp at hp
    | cons b l =>
      rw [List.cons_prefix_cons] at hp
      obtain ⟨rfl, hkl⟩ := hp
      have ha : a ≠ c := fun e => hc (e ▸ List.mem_cons_self a k)
      have hck : c ∉ k := fun e => hc (List.mem_cons_of_mem _ e)
      simpa [pySplit_cons, if_neg ha, List.cons_prefix_cons] using ih hkl hck

theorem mem_pySplit_isInf {c : Char} {part l : List Char} (h : part ∈ pySplit c l) :
    part <:+: l := by
  induction l with
  | nil =>
    simp [pySplit_nil] at h
    simp [h]
  | cons x xs ih =>
    by_cases hx : x = c
    · subst hx
      simp only [pySplit_cons, if_pos, List.mem_cons] at h
      rcases h with rfl | h
      · exact List.nil_infix
      · exact List.infix_cons (ih h)
    · simp only [pySplit_cons, if_neg hx, List.mem_cons] at h
      rcases h with rfl | h
      · exact (List.cons_prefix_cons.mpr ⟨rfl, headD_pySplit_isPre c xs⟩).isInfix
      · exact List.infix_cons (ih (List.mem_of_mem_tail h))

theorem isInf_mem_pySplit {c : Char} {k l : List Char} (h : k <:+: l) (hc : c ∉ k) :
    ∃ part ∈ pySplit c l, k <:+: part := by
  induction l with
  | nil =>
    rw [List.infix_nil] at h
    exact ⟨[], by simp [pySplit_nil], by simp [h]⟩
  | cons x xs ih =>
    rcases List.infix_cons_iff.mp h with hp | hin
    · refine ⟨(pySplit c (x :: xs)).headD [], ?_, (isPre_headD_pySplit hp hc).isInfix⟩
      rcases hps : pySplit c (x :: xs) with _ | ⟨p, ps⟩
      · exact absurd hps (pySplit_ne_nil c _)
      · simp
    · obtain ⟨part, hmem, hinf⟩ := ih hin
      by_cases hx : x = c
      · subst hx
        exact ⟨part, by simp [pySplit_cons, hmem], hinf⟩
      · rcases hps : pySplit c xs with _ | ⟨p, ps⟩
        · exact absurd hps (pySplit_ne_nil c _)
        · rw [hps] at hmem
          rcases List.mem_cons.mp hmem with rfl | hmem'
          · exact ⟨x :: part, by simp [pySplit_cons, if_neg hx, hps],
              List.infix_cons hinf⟩
          · exact ⟨part, by simp [pySplit_cons, if_neg hx, hps, hmem'], hinf⟩

theorem containsSeq_iff {pat l : List Char} : containsSeq pat l = true ↔ pat <:+: l := by
  induction l with
  | nil => simp [containsSeq, List.isEmpty_iff]
  | cons x xs ih =>
    simp [containsSeq, ih, List.infix_cons_iff]

theorem parseIntStr?_digits {l : List Char} (hne : l ≠ [])
    (hd : ∀ ch ∈ l, ch.isDigit = true) : parseIntStr? l = some (digitsVal l) := by
  simp only [parseIntStr?]
  rw [if_pos]
  simp only [Bool.and_eq_true, List.all_eq_true, Bool.not_eq_true']
  exact ⟨by simpa [List.isEmpty_iff] using hne, hd⟩

theorem scanTres_find? {ts : List (List Char)} {part : List Char}
    (h : ts.find? (fun p => containsSeq gpuKey p) = some part) :
    scanTres ts = valueAfterEq part := by
  induction ts with
  | nil => simp at h
  | cons t ts ih =>
    by_cases ht : containsSeq gpuKey t = true
    · rw [List.find?_cons_of_pos _ ht] at h
      cases h
      simp [scanTres, ht]
    · rw [List.find?_cons_of_neg _ (by simpa using ht)] at h
      simp [scanTres, ht, ih h]

theorem countP_add_countP_bnot (p : List Char → Bool) (l : List (List Char)) :
    l.countP p + l.countP (fun a => !p a) = l.length := by
  induction l with
  | nil => simp
  | cons x xs ih =>
    by_cases hx : p x = true <;>
      simp [List.countP_cons, hx, ← ih] <;> omega

theorem parseHMS_three {d : Nat} {rest hh mm ss : List Char}
    (h : pySplit ':' rest = [hh, mm, ss]) (hh1 : hh ≠ []) (mm1 : mm ≠ []) (ss1 : ss ≠ [])
    (hhd : ∀ ch ∈ hh, ch.isDigit = true) (mmd : ∀ ch ∈ mm, ch.isDigit = true)
    (ssd : ∀ ch ∈ ss, ch.isDigit = true) :
    parseHMS (some d) rest
      = some (d * 86400 + digitsVal hh * 60 * 60 + digitsVal mm * 60 + digitsVal ss) := by
  rw [parseHMS, h, List.map_cons, List.map_cons, List.map_cons, List.map_nil,
    parseIntStr?_digits hh1 hhd, parseIntStr?_digits mm1 mmd, parseIntStr?_digits ss1 ssd]
  rfl

theorem parseHMScore_not_three {days? : Option Nat} {fields : List (Option Nat)}
    (h : fields.length ≠ 3) : parseHMScore days? fields = none := by
  rcases fields with _ | ⟨a, _ | ⟨b, _ | ⟨c, _ | ⟨e, t⟩⟩⟩⟩ <;> first | rfl | simp at h

theorem parseHMS_not_three {days? : Option Nat} {rest : List Char}
    (h : (pySplit ':' rest).length ≠ 3) : parseHMS days? rest = none := by
  rw [parseHMS]
  exact parseHMScore_not_three (by simpa using h)

/-- Characterization of a successful `Job.__init__`: every test on the way to
the fully-built record. -/
theorem initJob_ok_elim {nps : NodePartitionPairs} {ass : List (List Char × Nat)}
    {aps : List (List Char × List Char)} {line : List Char} {j : Job}
    (h : initJob nps ass aps line = .ok j) :
    ∃ es cpus gpus wait,
      ("JobID".data).isPrefixOf line = false ∧
      13 ≤ (splitFields line).length ∧
      parse_elapsed_to_seconds ((splitFields line).getD 5 []) = some es ∧ es ≠ 0 ∧
      parseIntStr? ((splitFields line).getD 7 []) = some cpus ∧
      calculate_gpus_from_tres ((splitFields line).getD 8 []) = some gpus ∧
      calculate_wait_time_hours ((splitFields line).getD 9 [])
        ((splitFields line).getD 10 []) = some wait ∧
      j = mkJob nps ass aps (splitFields line) cpus gpus wait := by
  unfold initJob at h
  rcases hdr : ("JobID".data).isPrefixOf line with _ | _
  case true => rw [hdr] at h; simp at h
  rw [hdr] at h
  simp only [Bool.false_eq_true, if_false] at h
  by_cases h6 : (splitFields line).length < 6
  · rw [if_pos h6] at h; simp at h
  rw [if_neg h6] at h
  rcases hes : parse_elapsed_to_seconds ((splitFields line).getD 5 []) with _ | es
  · rw [hes] at h; simp at h
  rw [hes] at h
  dsimp only [] at h
  by_cases hz : es = 0
  · rw [if_pos hz] at h; simp at h
  rw [if_neg hz] at h
  by_cases h13 : (splitFields line).length < 13
  · rw [if_pos h13] at h; simp at h
  rw [if_neg h13] at h
  rcases hcpus : parseIntStr? ((splitFields line).getD 7 []) with _ | cpus
  · rw [hcpus] at h; simp at h
  rw [hcpus] at h
  dsimp only [] at h
  rcases hgpus : calculate_gpus_from_tres ((splitFields line).getD 8 []) with _ | gpus
  · rw [hgpus] at h; simp at h
  rw [hgpus] at h
  dsimp only [] at h
  rcases hwait : calculate_wait_time_hours ((splitFields line).getD 9 [])
      ((splitFields line).getD 10 []) with _ | wait
  · rw [hwait] at h; simp at h
  rw [hwait] at h
  dsimp only [] at h
  refine ⟨es, cpus, gpus, wait, rfl, by omega, rfl, hz, rfl, rfl, rfl, ?_⟩
  cases h
  rfl

/-! ### Claim theorems -/

theorem not_mem_of_all_digits {c : Char} {l : List Char} (hc : ¬ c.isDigit = true)
    (hd : ∀ ch ∈ l, ch.isDigit = true) : c ∉ l := fun hm => hc (hd c hm)

theorem parseHMScore_badfield {days? : Option Nat} {a b c : Option Nat}
    (h : a = none ∨ b = none ∨ c = none) : parseHMScore days? [a, b, c] = none := by
  rcases days? with _ | d
  · rfl
  · rcases h with rfl | rfl | rfl
    · rfl
    · rcases a with _ | a <;> rfl
    · rcases a with _ | a <;> rcases b with _ | b <;> rfl

/-- C4: the Duration Codec on well-formed `D-HH:MM:SS` and `HH:MM:SS` strings
returns `d*86400 + h*3600 + m*60 + s` (no range validation on the minute and
second fields), including the spec's two examples, and returns an error when
the remainder after the optional day split does not consist of exactly three
colon-separated integer fields. -/
theorem duration_codec_ok :
    (∀ dd hh mm ss : List Char, dd ≠ [] → hh ≠ [] → mm ≠ [] → ss ≠ [] →
      (∀ ch ∈ dd, ch.isDigit = true) → (∀ ch ∈ hh, ch.isDigit = true) →
      (∀ ch ∈ mm, ch.isDigit = true) → (∀ ch ∈ ss, ch.isDigit = true) →
      parse_elapsed_to_seconds (dd ++ '-' :: (hh ++ ':' :: (mm ++ ':' :: ss)))
        = some (digitsVal dd * 86400 + digitsVal hh * 60 * 60
            + digitsVal mm * 60 + digitsVal ss))
    ∧ (∀ hh mm ss : List Char, hh ≠ [] → mm ≠ [] → ss ≠ [] →
      (∀ ch ∈ hh, ch.isDigit = true) → (∀ ch ∈ mm, ch.isDigit = true) →
      (∀ ch ∈ ss, ch.isDigit = true) →
      parse_elapsed_to_seconds (hh ++ ':' :: (mm ++ ':' :: ss))
        = some (digitsVal hh * 60 * 60 + digitsVal mm * 60 + digitsVal ss))
    ∧ parse_elapsed_to_seconds ("1-00:00:01".data) = some 86401
    ∧ parse_elapsed_to_seconds ("11:11:11".data) = some 40271
    ∧ (∀ l : List Char, '-' ∉ l → (pySplit ':' l).length ≠ 3 →
        parse_elapsed_to_seconds l = none)
    ∧ (∀ l : List Char, '-' ∈ l →
        (pySplit ':' ((pySplit '-' l).getD 1 [])).length ≠ 3 →
        parse_elapsed_to_seconds l = none)
    ∧ (∀ l hh mm ss : List Char, '-' ∉ l → pySplit ':' l = [hh, mm, ss] →
        parseIntStr? hh = none ∨ parseIntStr? mm = none ∨ parseIntStr? ss = none →
        parse_elapsed_to_seconds l = none) := by
  refine ⟨?_, ?_, by decide, by decide, ?_, ?_, ?_⟩
  · intro dd hh mm ss hdd1 hhh1 hmm1 hss1 hddd hhhd hmmd hssd
    have hdd : ('-' : Char) ∉ dd := not_mem_of_all_digits (by decide) hddd
    have hrest : ('-' : Char) ∉ hh ++ ':' :: (mm ++ ':' :: ss) := by
      simp only [List.mem_append, List.mem_cons, not_or]
      exact ⟨not_mem_of_all_digits (by decide) hhhd, by decide,
        not_mem_of_all_digits (by decide) hmmd, by decide,
        not_mem_of_all_digits (by decide) hssd⟩
    have hmem : '-' ∈ dd ++ '-' :: (hh ++ ':' :: (mm ++ ':' :: ss)) :=
      List.mem_append_right _ (List.mem_cons_self _ _)
    rw [parse_elapsed_to_seconds, if_pos hmem, pySplit_append_sep _ hdd,
      pySplit_no_sep hrest, List.headD_cons, List.getD_cons_succ, List.getD_cons_zero,
      parseIntStr?_digits hdd1 hddd]
    have hsplit : pySplit ':' (hh ++ ':' :: (mm ++ ':' :: ss)) = [hh, mm, ss] := by
      rw [pySplit_append_sep _ (not_mem_of_all_digits (by decide) hhhd),
        pySplit_append_sep _ (not_mem_of_all_digits (by decide) hmmd),
        pySplit_no_sep (not_mem_of_all_digits (by decide) hssd)]
    exact parseHMS_three hsplit hhh1 hmm1 hss1 hhhd hmmd hssd
  · intro hh mm ss hhh1 hmm1 hss1 hhhd hmmd hssd
    have hrest : ('-' : Char) ∉ hh ++ ':' :: (mm ++ ':' :: ss) := by
      simp only [List.mem_append, List.mem_cons, not_or]
      exact ⟨not_mem_of_all_digits (by decide) hhhd, by decide,
        not_mem_of_all_digits (by decide) hmmd, by decide,
        not_mem_of_all_digits (by decide) hssd⟩
    rw [parse_elapsed_to_seconds, if_neg hrest]
    have hsplit : pySplit ':' (hh ++ ':' :: (mm ++ ':' :: ss)) = [hh, mm, ss] := by
      rw [pySplit_append_sep _ (not_mem_of_all_digits (by decide) hhhd),
        pySplit_append_sep _ (not_mem_of_all_digits (by decide) hmmd),
        pySplit_no_sep (not_mem_of_all_digits (by decide) hssd)]
    rw [parseHMS_three hsplit hhh1 hmm1 hss1 hhhd hmmd hssd]
    simp only [Option.some.injEq]
    omega
  · intro l hnd h3
    rw [parse_elapsed_to_seconds, if_neg hnd]
    exact parseHMS_not_three h3
  · intro l hd h3
    rw [parse_elapsed_to_seconds, if_pos hd]
    exact parseHMS_not_three h3
  · intro l hh mm ss hnd hsplit hbad
    rw [parse_elapsed_to_seconds, if_neg hnd, parseHMS, hsplit, List.map_cons,
      List.map_cons, List.map_cons, List.map_nil]
    rcases hbad with hb | hb | hb <;> rw [hb] <;> exact parseHMScore_badfield (by simp)

/-- C4 witness: the day form at concrete digit strings, with a minute field of
99 (≥ 60, accepted without range validation). -/
theorem duration_codec_ok_witness :
    parse_elapsed_to_seconds ("1-00:99:01".data) = some 92341 := by
  have h := duration_codec_ok.1 ("1".data) ("00".data) ("99".data) ("01".data)
    (by decide) (by decide) (by decide) (by decide)
    (by decide) (by decide) (by decide) (by decide)
  rw [show ("1".data ++ '-' :: ("00".data ++ ':' :: ("99".data ++ ':' :: "01".data)))
      = ("1-00:99:01".data) from by decide] at h
  rw [h]
  decide

/-- C5 counterexample: a TRES list whose sole token does contain `gres/gpu=`
still yields 0 (the token's value is 0), so "returns 0 exactly when no token
contains the key" fails in the only-if direction. -/
theorem resource_codec_zero_not_exclusive :
    calculate_gpus_from_tres ("gres/gpu=0".data) = some 0
    ∧ (pySplit ',' ("gres/gpu=0".data)).any (fun p => containsSeq gpuKey p) = true := by
  exact ⟨by decide, by decide⟩

/-- C5 (amended): 0 when no comma-separated token contains `gres/gpu=`;
otherwise the value after the first `=` of the first matching token, with a
parse error (distinct from 0) when that value is not a valid integer; a
matching token may itself carry the value 0. -/
theorem resource_codec_amended :
    (∀ tres : List Char, (∀ part ∈ pySplit ',' tres, containsSeq gpuKey part = false) →
      calculate_gpus_from_tres tres = some 0)
    ∧ (∀ tres part : List Char,
        (pySplit ',' tres).find? (fun p => containsSeq gpuKey p) = some part →
        calculate_gpus_from_tres tres = valueAfterEq part)
    ∧ calculate_gpus_from_tres ("billing=8,cpu=8,mem=64G,node=1".data) = some 0
    ∧ calculate_gpus_from_tres ("billing=8,cpu=8,mem=64G,node=1,gres/gpu=4".data) = some 4
    ∧ calculate_gpus_from_tres ("gres/gpu=x".data) = none := by
  refine ⟨?_, ?_, by decide, by decide, by decide⟩
  · intro tres hno
    have hw : ¬ containsSeq gpuKey tres = true := by
      intro hct
      obtain ⟨part, hmem, hinf⟩ :=
        isInf_mem_pySplit (c := ',') (containsSeq_iff.mp hct) (by decide)
      exact absurd (containsSeq_iff.mpr hinf) (by simp [hno part hmem])
    rw [calculate_gpus_from_tres, if_neg hw]
  · intro tres part hfind
    have hmem := List.mem_of_find?_eq_some hfind
    have hinf : gpuKey <:+: part := containsSeq_iff.mp (by simpa using List.find?_some hfind)
    have hw : containsSeq gpuKey tres = true :=
      containsSeq_iff.mpr (hinf.trans (mem_pySplit_isInf hmem))
    rw [calculate_gpus_from_tres, if_pos hw]
    exact scanTres_find? hfind

/-- C5 witness: the first-matching-token rule applied at a concrete list. -/
theorem resource_codec_amended_witness :
    calculate_gpus_from_tres ("a=1,gres/gpu=7".data) = valueAfterEq ("gres/gpu=7".data)
    ∧ valueAfterEq ("gres/gpu=7".data) = some 7 := by
  exact ⟨resource_codec_amended.2.1 _ _ (by decide), by decide⟩

theorem weight_frac_eq {openCat : Bool} {nps : NodePartitionPairs} {nodelist : List Char}
    {k n : Nat}
    (hk : (nodesOfNodelist nodelist).countP
        (fun nd => if openCat then nodeIsOpenUse nps nd else !nodeIsOpenUse nps nd) = k)
    (hn : (nodesOfNodelist nodelist).length = n) (h0 : n ≠ 0) :
    weight_frac openCat nps nodelist = (k : ℚ) / (n : ℚ) := by
  rw [weight_frac, if_neg (by rw [hn]; exact h0), hk, hn]

/-- C1 (divergence evaluated on the code): a donated-pool job both of whose
nodes are absent from the Node-Pool Index gets OPEN weight 0.0 but CONDO
weight 1.0 — the unknown nodes are resolved to partition `""` by
`get_partition` (which swallows the `KeyError`), so they count as non-open-use
in both the numerator and the denominator instead of being excluded, and the
weights are not 0.0/0.0. -/
theorem weight_unresolvable_counted_condo :
    categorize_job ("preempt".data) = .DONATED
    ∧ get_partition [] ("n0001".data) = []
    ∧ calculate_weight .OPEN [] ("n0001,n0002".data) = some 0
    ∧ calculate_weight .CONDO [] ("n0001,n0002".data) = some 1 := by
  refine ⟨by decide, rfl, ?_, ?_⟩
  · show some (weight_frac true [] ("n0001,n0002".data)) = some 0
    rw [weight_frac_eq (k := 0) (n := 2) (by decide) (by decide) (by decide)]
    norm_num
  · show some (weight_frac false [] ("n0001,n0002".data)) = some 1
    rw [weight_frac_eq (k := 2) (n := 2) (by decide) (by decide) (by decide)]
    norm_num

theorem weight_pred_true (nps : NodePartitionPairs) :
    (fun nd => if (true : Bool) then nodeIsOpenUse nps nd else !nodeIsOpenUse nps nd)
      = (fun nd => nodeIsOpenUse nps nd) := rfl

theorem weight_pred_false (nps : NodePartitionPairs) :
    (fun nd => if (false : Bool) then nodeIsOpenUse nps nd else !nodeIsOpenUse nps nd)
      = (fun nd => !nodeIsOpenUse nps nd) := rfl

theorem weight_frac_add (nps : NodePartitionPairs) (nodelist : List Char) :
    (nodesOfNodelist nodelist = [] ∧ weight_frac true nps nodelist = 0
      ∧ weight_frac false nps nodelist = 0)
    ∨ weight_frac true nps nodelist + weight_frac false nps nodelist = 1 := by
  by_cases h : (nodesOfNodelist nodelist).length = 0
  · left
    refine ⟨List.length_eq_zero.mp h, ?_, ?_⟩ <;> rw [weight_frac, if_pos h]
  · right
    rw [weight_frac, weight_frac, if_neg h, if_neg h, weight_pred_true, weight_pred_false,
      div_add_div_same, ← Nat.cast_add,
      countP_add_countP_bnot (fun nd => nodeIsOpenUse nps nd) (nodesOfNodelist nodelist)]
    exact div_self (by exact_mod_cast h)

/-- C2: for every emitted record the two category weights sum to exactly 1 (so
weighted cpu-hours are conserved), except when the node list is empty, in
which case both weights are exactly 0. -/
theorem weights_conserve_hours :
    ∀ (nps : NodePartitionPairs) (ass : List (List Char × Nat))
      (aps : List (List Char × List Char)) (line : List Char) (j : Job),
      initJob nps ass aps line = .ok j →
      (j.openuse_weight + j.condo_weight = 1
        ∧ j.openuse_weight * j.cpu_hours + j.condo_weight * j.cpu_hours = j.cpu_hours)
      ∨ (j.openuse_weight = 0 ∧ j.condo_weight = 0 ∧ nodesOfNodelist j.nodelist = []) := by
  intro nps ass aps line j h
  obtain ⟨es, cpus, gpus, wait, -, -, -, -, -, -, -, rfl⟩ := initJob_ok_elim h
  have how : (mkJob nps ass aps (splitFields line) cpus gpus wait).openuse_weight
      = weight_frac true nps ((splitFields line).getD 12 []) := rfl
  have hcw : (mkJob nps ass aps (splitFields line) cpus gpus wait).condo_weight
      = weight_frac false nps ((splitFields line).getD 12 []) := rfl
  have hnl : (mkJob nps ass aps (splitFields line) cpus gpus wait).nodelist
      = (splitFields line).getD 12 [] := rfl
  rcases weight_frac_add nps ((splitFields line).getD 12 []) with ⟨h0, h1, h2⟩ | hsum
  · right
    rw [how, hcw, hnl]
    exact ⟨h1, h2, h0⟩
  · left
    refine ⟨by rw [how, hcw]; exact hsum, ?_⟩
    rw [how, hcw, ← add_mul, hsum, one_mul]

/-- C2 witness: a donated-pool job on one open-use and one condo node. -/
theorem weights_conserve_hours_witness :
    ∃ j, initJob [(("n1".data), ("compute".data)), (("n2".data), ("kern".data))] [] []
        ("123|myjob|alice|lab|preempt|00:07:23|2|8|billing=8|2025-02-03T23:38:14|2025-02-03T23:53:21|2025-02-03T23:56:21|n1,n2".data)
        = .ok j
      ∧ ((j.openuse_weight + j.condo_weight = 1
          ∧ j.openuse_weight * j.cpu_hours + j.condo_weight * j.cpu_hours = j.cpu_hours)
        ∨ (j.openuse_weight = 0 ∧ j.condo_weight = 0 ∧ nodesOfNodelist j.nodelist = [])) := by
  obtain ⟨j, hj⟩ : ∃ j, initJob [(("n1".data), ("compute".data)), (("n2".data), ("kern".data))] [] []
      ("123|myjob|alice|lab|preempt|00:07:23|2|8|billing=8|2025-02-03T23:38:14|2025-02-03T23:53:21|2025-02-03T23:56:21|n1,n2".data)
      = .ok j := ⟨_, rfl⟩
  exact ⟨j, hj, weights_conserve_hours _ _ _ _ _ hj⟩

/-- C8: compute hours are resource count times elapsed seconds over 3600,
exactly, in rational arithmetic; zero count gives zero hours with no special
case; this holds both for the raw helper and for the emitted record's
`cpu_hours`/`gpu_hours` fields; spec example `8 × "00:07:23" ≈ 0.98444`. -/
theorem compute_hours_def :
    (∀ (q : ℚ) (e : List Char) (es : Nat), parse_elapsed_to_seconds e = some es →
      calculate_compute_hours q e = some (q * (es : ℚ) / 3600))
    ∧ (∀ (e : List Char) (es : Nat), parse_elapsed_to_seconds e = some es →
      calculate_compute_hours 0 e = some 0)
    ∧ (∀ nps ass aps (line : List Char) (j : Job) (es : Nat),
        initJob nps ass aps line = .ok j →
        parse_elapsed_to_seconds j.elapsed = some es →
        j.cpu_hours = (j.cpus : ℚ) * (es : ℚ) / 3600
        ∧ j.gpu_hours = (j.gpus : ℚ) * (es : ℚ) / 3600)
    ∧ calculate_compute_hours 8 ("00:07:23".data) = some (443 / 450) := by
  have hmain : ∀ (q : ℚ) (e : List Char) (es : Nat), parse_elapsed_to_seconds e = some es →
      calculate_compute_hours q e = some (q * (es : ℚ) / 3600) := by
    intro q e es h
    rw [calculate_compute_hours, h, Option.map_some', div_div]
    norm_num
  refine ⟨hmain, ?_, ?_, ?_⟩
  · intro e es h
    rw [hmain 0 e es h]
    norm_num
  · intro nps ass aps line j es h hes
    obtain ⟨es', cpus, gpus, wait, -, -, -, -, -, -, -, rfl⟩ := initJob_ok_elim h
    rw [show (mkJob nps ass aps (splitFields line) cpus gpus wait).elapsed
        = (splitFields line).getD 5 [] from rfl] at hes
    constructor
    · show (calculate_compute_hours ((cpus : Nat) : ℚ) ((splitFields line).getD 5 [])).getD 0
        = ((cpus : Nat) : ℚ) * (es : ℚ) / 3600
      rw [hmain _ _ _ hes, Option.getD_some]
    · show (calculate_compute_hours ((gpus : Nat) : ℚ) ((splitFields line).getD 5 [])).getD 0
        = ((gpus : Nat) : ℚ) * (es : ℚ) / 3600
      rw [hmain _ _ _ hes, Option.getD_some]
  · rw [hmain 8 _ 443 (by decide)]
    simp only [Option.some.injEq]
    norm_num

/-- C8 witness: one cpu-hour for one CPU over one hour. -/
theorem compute_hours_def_witness :
    calculate_compute_hours 5 ("01:00:00".data) = some ((5 : ℚ) * ((3600 : Nat) : ℚ) / 3600) :=
  compute_hours_def.1 5 ("01:00:00".data) 3600 (by decide)

/-- C9: the wait time is symmetric in its two timestamp arguments (for every
pair of strings, parseable or not) and non-negative whenever defined; spec
example `23:38:14` to `23:53:21` gives `907/3600 ≈ 0.25194` hours. -/
theorem wait_time_abs :
    (∀ s1 s2 : List Char, calculate_wait_time_hours s1 s2 = calculate_wait_time_hours s2 s1)
    ∧ (∀ (s1 s2 : List Char) (q : ℚ), calculate_wait_time_hours s1 s2 = some q → 0 ≤ q)
    ∧ calculate_wait_time_hours ("2025-02-03T23:38:14".data) ("2025-02-03T23:53:21".data)
        = some (907 / 3600) := by
  refine ⟨?_, ?_, ?_⟩
  · intro s1 s2
    rw [calculate_wait_time_hours, calculate_wait_time_hours]
    rcases h1 : fromisoformat? s1 with _ | a <;> rcases h2 : fromisoformat? s2 with _ | b <;>
      try rfl
    dsimp only []
    have hneg : ((dtSeconds b - dtSeconds a : Int) : ℚ)
        = -((dtSeconds a - dtSeconds b : Int) : ℚ) := by push_cast; ring
    rw [hneg, neg_div, neg_div, abs_neg]
  · intro s1 s2 q h
    rw [calculate_wait_time_hours] at h
    rcases h1 : fromisoformat? s1 with _ | a <;> rw [h1] at h
    · simp at h
    rcases h2 : fromisoformat? s2 with _ | b <;> rw [h2] at h
    · simp at h
    dsimp only [] at h
    simp only [Option.some.injEq] at h
    rw [← h]
    exact abs_nonneg _
  · have h1 : fromisoformat? ("2025-02-03T23:38:14".data) = some ⟨2025, 2, 3, 23, 38, 14⟩ := by
      decide
    have h2 : fromisoformat? ("2025-02-03T23:53:21".data) = some ⟨2025, 2, 3, 23, 53, 21⟩ := by
      decide
    have h3 : dtSeconds ⟨2025, 2, 3, 23, 53, 21⟩ - dtSeconds ⟨2025, 2, 3, 23, 38, 14⟩ = 907 := by
      decide
    rw [calculate_wait_time_hours, h1, h2]
    show some |((dtSeconds ⟨2025, 2, 3, 23, 53, 21⟩ - dtSeconds ⟨2025, 2, 3, 23, 38, 14⟩ : Int) : ℚ)
        / 60 / 60| = some (907 / 3600)
    rw [h3]
    norm_num

/-- C9 witness: the symmetry and sign conclusions at the spec's example pair. -/
theorem wait_time_abs_witness :
    calculate_wait_time_hours ("2025-02-03T23:38:14".data) ("2025-02-03T23:53:21".data)
      = some (907 / 3600) ∧ (0 : ℚ) ≤ 907 / 3600 := by
  have h := wait_time_abs.2.2
  exact ⟨h, wait_time_abs.2.1 _ _ _ h⟩

/-- C3 counterexample: a job recorded in the open-use partition `compute` whose
single node currently belongs to the condo pool `kern` is emitted with
category OPEN_USE but an attribution weight of 0, not 1.0 — the weight columns
are computed from the node list for every job, not pinned to 1.0 by the simple
policy. -/
theorem open_partition_weight_counterexample :
    ∃ j, mainStep [(("n1".data), ("kern".data))] [] []
        ("123|myjob|alice|lab|compute|00:07:23|1|8|billing=8|2025-02-03T23:38:14|2025-02-03T23:53:21|2025-02-03T23:56:21|n1".data)
      = .wroteRow j ∧ j.category = .OPEN ∧ ¬ j.openuse_weight = 1 := by
  obtain ⟨j, hj⟩ : ∃ j, initJob [(("n1".data), ("kern".data))] [] []
      ("123|myjob|alice|lab|compute|00:07:23|1|8|billing=8|2025-02-03T23:38:14|2025-02-03T23:53:21|2025-02-03T23:56:21|n1".data)
      = .ok j := ⟨_, rfl⟩
  obtain ⟨es, cpus, gpus, wait, -, -, -, -, -, -, -, rfl⟩ := initJob_ok_elim hj
  have hms : mainStep [(("n1".data), ("kern".data))] [] []
      ("123|myjob|alice|lab|compute|00:07:23|1|8|billing=8|2025-02-03T23:38:14|2025-02-03T23:53:21|2025-02-03T23:56:21|n1".data)
      = .wroteRow (mkJob [(("n1".data), ("kern".data))] [] [] (splitFields
        ("123|myjob|alice|lab|compute|00:07:23|1|8|billing=8|2025-02-03T23:38:14|2025-02-03T23:53:21|2025-02-03T23:56:21|n1".data))
        cpus gpus wait) := by
    simp only [mainStep, hj]
  refine ⟨_, hms, ?_, ?_⟩
  · show categorize_job ((splitFields
        ("123|myjob|alice|lab|compute|00:07:23|1|8|billing=8|2025-02-03T23:38:14|2025-02-03T23:53:21|2025-02-03T23:56:21|n1".data)).getD
          4 []) = .OPEN
    decide
  · show ¬ weight_frac true [(("n1".data), ("kern".data))] ((splitFields
        ("123|myjob|alice|lab|compute|00:07:23|1|8|billing=8|2025-02-03T23:38:14|2025-02-03T23:53:21|2025-02-03T23:56:21|n1".data)).getD
          12 []) = 1
    rw [weight_frac_eq (k := 0) (n := 1) (by decide) (by decide) (by decide)]
    norm_num

/-- C3 (amended): every emitted job yields exactly one output row; the
category is determined solely by the recorded partition, and is OPEN_USE
whenever that partition is a designated open-use pool; but the record's
open-use weight column is the node-list fraction, which equals 1.0 exactly
when every (non-empty) listed node resolves to an open-use pool. -/
theorem open_partition_single_row :
    ∀ (nps : NodePartitionPairs) (ass : List (List Char × Nat))
      (aps : List (List Char × List Char)) (line : List Char) (j : Job),
      initJob nps ass aps line = .ok j →
      j.partition ∈ OPEN_USE_PARTITIONS →
      j.category = .OPEN
      ∧ j.category = categorize_job j.partition
      ∧ runMain nps ass aps [line] = ([j], false)
      ∧ j.openuse_weight = weight_frac true nps j.nodelist
      ∧ (nodesOfNodelist j.nodelist ≠ [] →
          (j.openuse_weight = 1 ↔
            ∀ n ∈ nodesOfNodelist j.nodelist, nodeIsOpenUse nps n = true)) := by
  intro nps ass aps line j h hmem
  obtain ⟨es, cpus, gpus, wait, -, -, -, -, -, -, -, rfl⟩ := initJob_ok_elim h
  have hpart : (mkJob nps ass aps (splitFields line) cpus gpus wait).partition
      = (splitFields line).getD 4 [] := rfl
  have hcat : (mkJob nps ass aps (splitFields line) cpus gpus wait).category
      = categorize_job ((splitFields line).getD 4 []) := rfl
  have hnl : (mkJob nps ass aps (splitFields line) cpus gpus wait).nodelist
      = (splitFields line).getD 12 [] := rfl
  have how : (mkJob nps ass aps (splitFields line) cpus gpus wait).openuse_weight
      = weight_frac true nps ((splitFields line).getD 12 []) := rfl
  rw [hpart] at hmem
  have hms : mainStep nps ass aps line
      = .wroteRow (mkJob nps ass aps (splitFields line) cpus gpus wait) := by
    simp only [mainStep, h]
  refine ⟨?_, ?_, ?_, ?_, ?_⟩
  · rw [hcat, categorize_job, if_pos hmem]
  · rw [hcat, hpart]
  · simp [runMain, hms]
  · rw [how, hnl]
  · intro hne
    rw [hnl] at hne
    rw [how, hnl]
    have hlen : (nodesOfNodelist ((splitFields line).getD 12 [])).length ≠ 0 := by
      simpa [List.length_eq_zero] using hne
    rw [weight_frac, if_neg hlen, weight_pred_true,
      div_eq_one_iff_eq (by exact_mod_cast hlen), Nat.cast_inj]
    exact List.countP_eq_length

/-- C3 witness: an open-use job on an open-use node, one row, category OPEN. -/
theorem open_partition_single_row_witness :
    ∃ j, initJob [(("n1".data), ("compute".data))] [] []
        ("124|myjob|alice|lab|gpu|00:07:23|1|8|billing=8|2025-02-03T23:38:14|2025-02-03T23:53:21|2025-02-03T23:56:21|n1".data)
      = .ok j
      ∧ j.category = .OPEN
      ∧ runMain [(("n1".data), ("compute".data))] [] []
          [("124|myjob|alice|lab|gpu|00:07:23|1|8|billing=8|2025-02-03T23:38:14|2025-02-03T23:53:21|2025-02-03T23:56:21|n1".data)]
        = ([j], false) := by
  obtain ⟨j, hj⟩ : ∃ j, initJob [(("n1".data), ("compute".data))] [] []
      ("124|myjob|alice|lab|gpu|00:07:23|1|8|billing=8|2025-02-03T23:38:14|2025-02-03T23:53:21|2025-02-03T23:56:21|n1".data)
      = .ok j := ⟨_, rfl⟩
  have hmem : j.partition ∈ OPEN_USE_PARTITIONS := by
    obtain ⟨es, cpus, gpus, wait, -, -, -, -, -, -, -, rfl⟩ := initJob_ok_elim hj
    show (splitFields
        ("124|myjob|alice|lab|gpu|00:07:23|1|8|billing=8|2025-02-03T23:38:14|2025-02-03T23:53:21|2025-02-03T23:56:21|n1".data)).getD
          4 [] ∈ OPEN_USE_PARTITIONS
    decide
  have h := open_partition_single_row _ _ _ _ _ hj hmem
  exact ⟨j, hj, h.1, h.2.2.1⟩

/-- C6 (divergence evaluated on the code): the two intended skip paths do not
skip.  `Job.__init__`'s early `return None` still leaves `Job(line, ...)`
returning a partially-initialized object; a dataclass instance is always
truthy, so `if job:` never filters it, and `job.keys()` /
`writer.writerow(job.values())` hit unset attributes and raise
`AttributeError` (modelled as `.raisedAttr`), aborting the batch instead of
skipping the line: a header line and a zero-elapsed line both abort the run,
and no later line is processed. -/
theorem skip_paths_raise :
    mainStep [] [] []
        ("JobID|JobName|User|Account|Partition|Elapsed|NNodes|NCPUS|AllocTRES|Submit|Start|End|NodeList".data)
      = .raisedAttr
    ∧ mainStep [] [] []
        ("29|j|u|acct|kern|00:00:00|1|8|billing=8|2025-02-03T23:38:14|2025-02-03T23:53:21|2025-02-03T23:56:21|n1".data)
      = .raisedAttr
    ∧ runMain [] [] []
        [("JobID|JobName|User".data),
         ("29|j|u|acct|kern|00:07:23|1|8|billing=8|2025-02-03T23:38:14|2025-02-03T23:53:21|2025-02-03T23:56:21|n1".data)]
      = ([], true) := by
  exact ⟨by decide, by decide, by decide⟩

/-- C7 counterexample: a line with 14 non-empty fields (one more than the
schema's 13) whose `nodes` field `"abc"` is not an integer is still parsed
into a full row and written — no error is raised: the extra field is ignored
and `nodes` is stored as an unconverted string. -/
theorem malformed_line_counterexample :
    (splitFields
        ("1|j|u|a|p|00:07:23|abc|8|billing=8|2025-02-03T23:38:14|2025-02-03T23:53:21|2025-02-03T23:56:21|n1|extra".data)).length
      = 14
    ∧ parseIntStr? ((splitFields
        ("1|j|u|a|p|00:07:23|abc|8|billing=8|2025-02-03T23:38:14|2025-02-03T23:53:21|2025-02-03T23:56:21|n1|extra".data)).getD
          6 []) = none
    ∧ (mainStep [] [] []
        ("1|j|u|a|p|00:07:23|abc|8|billing=8|2025-02-03T23:38:14|2025-02-03T23:53:21|2025-02-03T23:56:21|n1|extra".data)).wrote
      = true := by
  exact ⟨by decide, by decide, by decide⟩

/-- C7 (amended): a non-header line with fewer than 13 trimmed non-empty
fields always aborts the batch (either an exception inside `__init__` or the
`AttributeError` on the partially-built record — never a written row); a
non-integer `cpus` field raises; and any line whose step does not write a row
stops the run with no later rows emitted. -/
theorem short_or_bad_line_aborts :
    (∀ (nps : NodePartitionPairs) (ass : List (List Char × Nat))
       (aps : List (List Char × List Char)) (line : List Char),
      ("JobID".data).isPrefixOf line = false →
      (splitFields line).length < 13 →
      mainStep nps ass aps line = .raisedParse ∨ mainStep nps ass aps line = .raisedAttr)
    ∧ (∀ (nps : NodePartitionPairs) (ass : List (List Char × Nat))
         (aps : List (List Char × List Char)) (line : List Char) (es : Nat),
      ("JobID".data).isPrefixOf line = false →
      13 ≤ (splitFields line).length →
      parse_elapsed_to_seconds ((splitFields line).getD 5 []) = some es → es ≠ 0 →
      parseIntStr? ((splitFields line).getD 7 []) = none →
      mainStep nps ass aps line = .raisedParse)
    ∧ (∀ (nps : NodePartitionPairs) (ass : List (List Char × Nat))
         (aps : List (List Char × List Char)) (line : List Char) (rest : List (List Char)),
      (∀ j, mainStep nps ass aps line ≠ .wroteRow j) →
      runMain nps ass aps (line :: rest) = ([], true)) := by
  refine ⟨?_, ?_, ?_⟩
  · intro nps ass aps line hh h13
    have hinit : initJob nps ass aps line = .exn
        ∨ initJob nps ass aps line = .zeroElapsed := by
      rw [initJob, hh]
      simp only [Bool.false_eq_true, if_false]
      by_cases h6 : (splitFields line).length < 6
      · rw [if_pos h6]
        left
        rfl
      · rw [if_neg h6]
        rcases hes : parse_elapsed_to_seconds ((splitFields line).getD 5 []) with _ | es
        · left
          rfl
        · by_cases hz : es = 0
          · subst hz
            right
            rfl
          · left
            dsimp only []
            rw [if_neg hz, if_pos (by omega : (splitFields line).length < 13)]
    rcases hinit with h | h
    · left
      rw [mainStep, h]
    · right
      rw [mainStep, h]
  · intro nps ass aps line es hh h13 hes hz hcpus
    rw [mainStep, initJob, hh]
    simp only [Bool.false_eq_true, if_false]
    rw [if_neg (by omega : ¬ (splitFields line).length < 6), hes]
    dsimp only []
    rw [if_neg hz, if_neg (by omega : ¬ (splitFields line).length < 13), hcpus]
  · intro nps ass aps line rest hnw
    rcases hms : mainStep nps ass aps line with j | _ | _
    · exact absurd hms (hnw j)
    · simp [runMain, hms]
    · simp [runMain, hms]

/-- C7 witness: a three-field line aborts instead of writing a row. -/
theorem short_or_bad_line_aborts_witness :
    mainStep [] [] [] ("1|2|3".data) = .raisedParse
    ∨ mainStep [] [] [] ("1|2|3".data) = .raisedAttr :=
  short_or_bad_line_aborts.1 [] [] [] ("1|2|3".data) (by decide) (by decide)

/-- C10: whitespace-only fields are dropped before positional assignment, so
every parser-assigned string field of an emitted record is non-empty; a line
with the full raw field count but one blank field comes up short and aborts;
and extra non-empty fields after a blank one shift later fields into earlier
schema slots without any error. -/
theorem filtered_fields_nonempty :
    (∀ (nps : NodePartitionPairs) (ass : List (List Char × Nat))
       (aps : List (List Char × List Char)) (line : List Char) (j : Job),
      initJob nps ass aps line = .ok j →
      j.job_id ≠ [] ∧ j.job_name ≠ [] ∧ j.username ≠ [] ∧ j.account ≠ [] ∧
      j.partition ≠ [] ∧ j.elapsed ≠ [] ∧ j.nodes ≠ [] ∧ j.tres ≠ [] ∧
      j.submit_time ≠ [] ∧ j.start_time ≠ [] ∧ j.end_time ≠ [] ∧ j.nodelist ≠ [])
    ∧ initJob [] [] []
        ("1|j|u|a|compute|00:07:23|1|8|billing=8|2025-02-03T23:38:14|2025-02-03T23:53:21|2025-02-03T23:56:21| ".data)
      = .exn
    ∧ (∃ j, initJob [] [] []
        ("1|j|u|a| |compute|00:07:23|1|8|billing=8|2025-02-03T23:38:14|2025-02-03T23:53:21|2025-02-03T23:56:21|n1".data)
        = .ok j ∧ j.partition = "compute".data ∧ j.elapsed = "00:07:23".data) := by
  refine ⟨?_, by decide, ?_⟩
  · intro nps ass aps line j h
    obtain ⟨es, cpus, gpus, wait, -, h13, -, -, -, -, -, rfl⟩ := initJob_ok_elim h
    have key : ∀ i : Nat, i < 13 → (splitFields line).getD i [] ≠ [] := by
      intro i hi
      have hmem : (splitFields line).getD i [] ∈ splitFields line := by
        rw [List.getD_eq_getElem?_getD, List.getElem?_eq_getElem (by omega), Option.getD_some]
        exact List.getElem_mem _
      have hmem' : (splitFields line).getD i []
          ∈ ((pySplit '|' line).map pyStrip).filter (fun n => !n.isEmpty) := hmem
      have hp := (List.mem_filter.mp hmem').2
      simpa [List.isEmpty_iff] using hp
    exact ⟨key 0 (by omega), key 1 (by omega), key 2 (by omega), key 3 (by omega),
      key 4 (by omega), key 5 (by omega), key 6 (by omega), key 8 (by omega),
      key 9 (by omega), key 10 (by omega), key 11 (by omega), key 12 (by omega)⟩
  · obtain ⟨j, hj⟩ : ∃ j, initJob [] [] []
        ("1|j|u|a| |compute|00:07:23|1|8|billing=8|2025-02-03T23:38:14|2025-02-03T23:53:21|2025-02-03T23:56:21|n1".data)
        = .ok j := ⟨_, rfl⟩
    obtain ⟨es, cpus, gpus, wait, -, -, -, -, -, -, -, rfl⟩ := initJob_ok_elim hj
    refine ⟨_, hj, ?_, ?_⟩
    · show (splitFields
          ("1|j|u|a| |compute|00:07:23|1|8|billing=8|2025-02-03T23:38:14|2025-02-03T23:53:21|2025-02-03T23:56:21|n1".data)).getD
            4 [] = "compute".data
      decide
    · show (splitFields
          ("1|j|u|a| |compute|00:07:23|1|8|billing=8|2025-02-03T23:38:14|2025-02-03T23:53:21|2025-02-03T23:56:21|n1".data)).getD
            5 [] = "00:07:23".data
      decide

/-- C10 witness: the non-empty-fields conclusion at a concrete line. -/
theorem filtered_fields_nonempty_witness :
    ∃ j, initJob [] [] []
        ("77|wjob|bob|grp|kern|00:07:23|1|8|billing=8|2025-02-03T23:38:14|2025-02-03T23:53:21|2025-02-03T23:56:21|n3".data)
      = .ok j ∧ j.partition ≠ [] := by
  obtain ⟨j, hj⟩ : ∃ j, initJob [] [] []
      ("77|wjob|bob|grp|kern|00:07:23|1|8|billing=8|2025-02-03T23:38:14|2025-02-03T23:53:21|2025-02-03T23:56:21|n3".data)
      = .ok j := ⟨_, rfl⟩
  exact ⟨j, hj, (filtered_fields_nonempty.1 _ _ _ _ _ hj).2.2.2.2.1⟩
